import Mathlib

/-!
Verification development for the `rust_etl_pipeline` crawler
(`src/rust_etl_pipeline/src/main.rs`).

The program fetches a paginated grants listing, iterates the record nodes of
each page in document order, parses each record's displayed date, stops the
whole crawl on the first record strictly older than the cutoff
(`Utc::now() - Duration::days(120)`), skips records with unparseable dates
(logging a warning), extracts nine string fields per kept record and appends
them as a CSV row after a fixed header row.

Modelling conventions:
* HTML is modelled as a forest of element/text nodes (`Forest`, `Element`).
  CSS selectors with descendant combinators are modelled over the subtree
  being queried (ancestors above the queried element are not represented;
  none of the selectors in the source depend on them).
* `scraper`'s `ElementRef::select` (descendants in document order),
  `text()` (text fragments in document order) and `inner_html()`
  (serialization of the children) are modelled by `select`, `Element.texts`
  and `Element.innerHtml`.
* Rust string helpers `str::contains`, `str::replace`, `str::trim` and
  `join(" ")` are modelled by `strContains`, `strReplace`, `strTrim`,
  `joinSpace` (structurally recursive so that concrete runs reduce in the
  kernel).  `strTrim` trims the ASCII whitespace characters; the exotic
  Unicode whitespace code points are not modelled.
* `chrono`'s `NaiveDate::parse_from_str` with the formats `"%b %e, %Y"` and
  `"%b %d, %Y"` is modelled by `parseMDY`: chrono's parser ignores the
  padding flag of numeric items (it trims leading whitespace and accepts
  1 to width digits for both `%e` and `%d`), so both format strings parse
  the same language; `parse_be` and `parse_bd` name the two attempts of the
  source and `parsedDate` is their `or_else` chaining.
* Instants (`DateTime<Utc>`) are modelled as seconds since the Unix epoch
  (`Int`); `dateToInstant` is midnight UTC of a parsed calendar date, via
  the standard days-from-civil calendar computation.
* The network and the page loop: `fetch : Nat → Except String Element`
  gives page `p`'s parsed document or a transport error.  `crawlLoop` is
  the `'pages` loop with an explicit fuel argument (the Rust loop has no
  page bound; fuel only truncates runs, it decides nothing).  The CSV sink
  is modelled as the list of written rows (header first); `write_record`
  and `flush` failures are not modelled.  The warning log models `eprintln!`
  lines.
-/

namespace Etl

/-! ### HTML forests and CSS selection -/

/-- An HTML node forest: a sequence of text nodes and element nodes, where an
element carries its tag name, its `class` list and its child forest.  (This is
the node tree of the `scraper` crate, with the node-list structure fused into
the inductive so that every traversal is structurally recursive.) -/
inductive Forest where
  | nil : Forest
  | textCons (s : String) (rest : Forest) : Forest
  | elemCons (tag : String) (classes : List String) (children : Forest) (rest : Forest) : Forest
deriving DecidableEq

/-- One element node: tag, classes, children. -/
structure Element where
  tag : String
  classes : List String
  children : Forest
deriving DecidableEq

/-- Re-attach an element at the front of a forest. -/
def consEl (e : Element) (rest : Forest) : Forest :=
  .elemCons e.tag e.classes e.children rest

/-- A simple CSS selector `tag.c1.c2`: tag name plus required classes. -/
structure SimpleSel where
  tag : String
  classes : List String
deriving DecidableEq

/-- A CSS selector with descendant combinators `a1 a2 ... target`. -/
structure Css where
  ancestors : List SimpleSel
  target : SimpleSel
deriving DecidableEq

/-- Does a simple selector match an element with the given tag and classes? -/
def simpleMatches (s : SimpleSel) (tag : String) (classes : List String) : Bool :=
  s.tag == tag && s.classes.all (fun cl => classes.contains cl)

/-- Do the ancestor components of a selector match (in order, as a
subsequence) the given ancestor path (outermost first)? -/
def seqMatches : List SimpleSel → List (String × List String) → Bool
  | [], _ => true
  | _ :: _, [] => false
  | s :: ss, (t, c) :: rest =>
    (simpleMatches s t c && seqMatches ss rest) || seqMatches (s :: ss) rest

/-- Full selector match for an element with ancestor path `path`. -/
def cssMatches (sel : Css) (path : List (String × List String)) (tag : String)
    (classes : List String) : Bool :=
  simpleMatches sel.target tag classes && seqMatches sel.ancestors path

/-- All elements of a forest matching `sel`, in document (preorder) order,
where `path` is the list of ancestors (outermost first) of the forest's
roots. -/
def selectF (sel : Css) : List (String × List String) → Forest → List Element
  | _, .nil => []
  | path, .textCons _ rest => selectF sel path rest
  | path, .elemCons t c ch rest =>
    (if cssMatches sel path t c then [⟨t, c, ch⟩] else []) ++
      selectF sel (path ++ [(t, c)]) ch ++ selectF sel path rest

/-- Model of `e.select(&sel)`: matching elements among the strict descendants of `e`,
in document order (`e` itself is on the ancestor path, as in `scraper`). -/
def select (sel : Css) (e : Element) : List Element :=
  selectF sel [(e.tag, e.classes)] e.children

/-- The text fragments of a forest, in document order. -/
def textsF : Forest → List String
  | .nil => []
  | .textCons s rest => s :: textsF rest
  | .elemCons _ _ ch rest => textsF ch ++ textsF rest

/-- Model of `e.text()`: the descendant text fragments of an element, in order. -/
def Element.texts (e : Element) : List String :=
  textsF e.children

/-- Serialize the `class` attribute of an element. -/
def classAttr (c : List String) : String :=
  match c with
  | [] => ""
  | _ => " class=\"" ++ String.intercalate " " c ++ "\""

/-- Serialize a forest back to markup text (text escaping not modelled; the
source only reads `inner_html` of paragraph nodes). -/
def innerHtmlF : Forest → String
  | .nil => ""
  | .textCons s rest => s ++ innerHtmlF rest
  | .elemCons t c ch rest =>
    "<" ++ t ++ classAttr c ++ ">" ++ innerHtmlF ch ++ "</" ++ t ++ ">" ++ innerHtmlF rest

/-- Model of `e.inner_html()`: serialization of the children of `e`. -/
def Element.innerHtml (e : Element) : String :=
  innerHtmlF e.children

/-! ### The selectors of the source (main.rs lines 27–33) -/

/-- Selector `div.row.mrgn-bttm-xl.mrgn-lft-md` (one record node). -/
def item_sel : Css := ⟨[], ⟨"div", ["row", "mrgn-bttm-xl", "mrgn-lft-md"]⟩⟩

/-- Selector `div.col-sm-12.mrgn-tp-0` (info block). -/
def info_sel : Css := ⟨[], ⟨"div", ["col-sm-12", "mrgn-tp-0"]⟩⟩

/-- Selector `div.col-sm-12` (generic block). -/
def generic_sel : Css := ⟨[], ⟨"div", ["col-sm-12"]⟩⟩

/-- Selector `div.col-sm-8` (name block). -/
def name_sel : Css := ⟨[], ⟨"div", ["col-sm-8"]⟩⟩

/-- Selector `div.col-sm-4.text-right h4.mrgn-tp-0.mrgn-bttm-sm` (price). -/
def price_sel : Css := ⟨[⟨"div", ["col-sm-4", "text-right"]⟩], ⟨"h4", ["mrgn-tp-0", "mrgn-bttm-sm"]⟩⟩

/-- Selector `div.col-sm-4.text-right h5.mrgn-tp-0.mrgn-bttm-sm` (displayed date). -/
def date_check_sel : Css := ⟨[⟨"div", ["col-sm-4", "text-right"]⟩], ⟨"h5", ["mrgn-tp-0", "mrgn-bttm-sm"]⟩⟩

/-- Selector `p`. -/
def p_sel : Css := ⟨[], ⟨"p", []⟩⟩

/-! ### Rust string helpers -/

/-- Is `pat` a leading run of `s`? -/
def charsLeading : List Char → List Char → Bool
  | [], _ => true
  | _ :: _, [] => false
  | p :: ps, c :: cs => p == c && charsLeading ps cs

/-- Does `s` contain `pat` as a contiguous run? (Rust `str::contains`.) -/
def charsContain : List Char → List Char → Bool
  | [], pat => charsLeading pat []
  | c :: cs, pat => charsLeading pat (c :: cs) || charsContain cs pat

/-- Rust `str::contains` on strings. -/
def strContains (s pat : String) : Bool :=
  charsContain s.data pat.data

/-- Replace all leftmost non-overlapping occurrences of `pat` (Rust
`str::replace`): `skip` counts pattern characters still to drop after a
match.  On the (unused in the source) empty pattern this is the identity. -/
def charsReplaceAux (pat rep : List Char) : Nat → List Char → List Char
  | _, [] => []
  | k + 1, _ :: cs => charsReplaceAux pat rep k cs
  | 0, c :: cs =>
    if pat ≠ [] ∧ charsLeading pat (c :: cs) then
      rep ++ charsReplaceAux pat rep (pat.length - 1) cs
    else
      c :: charsReplaceAux pat rep 0 cs

/-- Rust `str::replace` on strings. -/
def strReplace (s pat rep : String) : String :=
  String.mk (charsReplaceAux pat.data rep.data 0 s.data)

/-- Drop leading whitespace characters. -/
def dropWsLeading : List Char → List Char
  | [] => []
  | c :: cs => if c.isWhitespace then dropWsLeading cs else c :: cs

/-- Rust `str::trim` (both ends). -/
def strTrim (s : String) : String :=
  String.mk ((dropWsLeading (dropWsLeading s.data).reverse).reverse)

/-- Rust `Vec::join(" ")`. -/
def joinSpace : List String → String
  | [] => ""
  | [s] => s
  | s :: rest => s ++ " " ++ joinSpace rest

/-! ### chrono date parsing (`NaiveDate::parse_from_str`, formats
`"%b %e, %Y"` and `"%b %d, %Y"`, main.rs lines 65–67) -/

/-- A parsed calendar date (`chrono::NaiveDate`). -/
structure Date where
  year : Int
  month : Nat
  day : Nat
deriving DecidableEq

/-- The lowercase month abbreviations accepted by `%b` (ASCII
case-insensitive in chrono). -/
def monthAbbrevs : List String :=
  ["jan", "feb", "mar", "apr", "may", "jun", "jul", "aug", "sep", "oct", "nov", "dec"]

/-- Parse a three-letter month abbreviation (chrono `Fixed::ShortMonthName`),
returning the month number and the remaining input. -/
def parseShortMonth : List Char → Except String (Nat × List Char)
  | c1 :: c2 :: c3 :: rest =>
    match monthAbbrevs.findIdx? (fun a => a == String.mk [c1.toLower, c2.toLower, c3.toLower]) with
    | some i => .ok (i + 1, rest)
    | none => .error "input contains invalid characters"
  | _ => .error "premature end of input"

/-- Skip leading whitespace (chrono consumes any amount of whitespace for a
space item in the format, and trims leading whitespace before a numeric
item). -/
def skipWs : List Char → List Char
  | [] => []
  | c :: cs => if c.isWhitespace then skipWs cs else c :: cs

/-- Take up to `w` leading decimal digits. -/
def takeDigits : Nat → List Char → List Char × List Char
  | _, [] => ([], [])
  | 0, cs => ([], cs)
  | w + 1, c :: cs =>
    if c.isDigit then
      let (ds, r) := takeDigits w cs
      (c :: ds, r)
    else ([], c :: cs)

/-- Numeric value of a digit run. -/
def digitsToNat (ds : List Char) : Nat :=
  ds.foldl (fun acc c => acc * 10 + (c.toNat - '0'.toNat)) 0

/-- Parse the year for `%Y` (chrono: with an explicit sign, any number of
digits; without, at most four). -/
def parseYearNum : List Char → Except String (Int × List Char)
  | [] => .error "premature end of input"
  | '-' :: cs =>
    match takeDigits cs.length cs with
    | ([], _) => .error "input contains invalid characters"
    | (ds, r) => .ok (-(digitsToNat ds : Int), r)
  | '+' :: cs =>
    match takeDigits cs.length cs with
    | ([], _) => .error "input contains invalid characters"
    | (ds, r) => .ok ((digitsToNat ds : Int), r)
  | cs =>
    match takeDigits 4 cs with
    | ([], _) => .error "input contains invalid characters"
    | (ds, r) => .ok ((digitsToNat ds : Int), r)

/-- Is `y` a leap year (proleptic Gregorian)? -/
def isLeapYear (y : Int) : Bool :=
  (y % 4 == 0 && y % 100 != 0) || y % 400 == 0

/-- Number of days in month `m` of year `y`. -/
def daysInMonth (y : Int) (m : Nat) : Nat :=
  if m = 2 then (if isLeapYear y then 29 else 28)
  else if m = 4 ∨ m = 6 ∨ m = 9 ∨ m = 11 then 30
  else 31

/-- Validating date constructor (`NaiveDate::from_ymd_opt`): day must exist
in the month and the year must be in chrono's representable range. -/
def mkDate (y : Int) (m d : Nat) : Option Date :=
  if 1 ≤ m ∧ m ≤ 12 ∧ 1 ≤ d ∧ d ≤ daysInMonth y m ∧ (-262144 : Int) ≤ y ∧ y ≤ 262143 then
    some ⟨y, m, d⟩
  else none

/-- chrono's parse of a full input against `"%b %e, %Y"` / `"%b %d, %Y"`:
month abbreviation, whitespace, a 1–2 digit day (chrono's parser ignores the
zero/space padding flag of `%d`/`%e`, so the two formats accept the same
inputs), a literal comma, whitespace, the year, end of input, then date
validation.  Error strings follow `chrono::format::ParseError`'s messages. -/
def parseMDY (s : String) : Except String Date :=
  match parseShortMonth s.data with
  | .error e => .error e
  | .ok (m, r1) =>
    match takeDigits 2 (skipWs r1) with
    | ([], []) => .error "premature end of input"
    | ([], _) => .error "input contains invalid characters"
    | (ds, r2) =>
      match r2 with
      | ',' :: r3 =>
        match parseYearNum (skipWs r3) with
        | .error e => .error e
        | .ok (y, r4) =>
          if r4.isEmpty then
            match mkDate y m (digitsToNat ds) with
            | some date => .ok date
            | none => .error "input is out of range"
          else .error "trailing input"
      | [] => .error "premature end of input"
      | _ => .error "input contains invalid characters"

/-- First parse attempt of the source: `NaiveDate::parse_from_str(s, "%b %e, %Y")`. -/
def parse_be (s : String) : Except String Date :=
  parseMDY s

/-- Second parse attempt of the source: `NaiveDate::parse_from_str(s, "%b %d, %Y")`
(same accepted language: chrono ignores numeric padding when parsing). -/
def parse_bd (s : String) : Except String Date :=
  parseMDY s

/-- The `or_else` chain of main.rs lines 65–67: try `"%b %e, %Y"`, then fall
back to `"%b %d, %Y"`. -/
def parsedDate (s : String) : Except String Date :=
  match parse_be s with
  | .ok d => .ok d
  | .error _ => parse_bd s

/-! ### Instants and the cutoff (main.rs lines 10 and 76–82) -/

/-- Days since 1970-01-01 of a proleptic-Gregorian calendar day (the standard
days-from-civil computation, as used by chrono's internal day count). -/
def daysFromCivil (y : Int) (m d : Nat) : Int :=
  let yAdj : Int := if m ≤ 2 then y - 1 else y
  let era : Int := Int.fdiv yAdj 400
  let yoe : Int := yAdj - era * 400
  let mp : Nat := (m + 9) % 12
  let doy : Int := (((153 * mp + 2) / 5 : Nat) : Int) + (d : Int) - 1
  let doe : Int := yoe * 365 + Int.fdiv yoe 4 - Int.fdiv yoe 100 + doy
  era * 146097 + doe - 719468

/-- Model of `DateTime::<Utc>::from_utc(parsed_date.and_hms(0, 0, 0), Utc)` as seconds
since the Unix epoch: midnight UTC at the start of the parsed day. -/
def dateToInstant (d : Date) : Int :=
  daysFromCivil d.year d.month d.day * 86400

/-- Model of `Utc::now() - Duration::days(120)` (main.rs line 10), with `now` the
current instant in epoch seconds. -/
def cutoffOf (now : Int) : Int :=
  now - 120 * 86400

/-! ### The date cutoff gate (spec §4.1, materialized from main.rs 64–82) -/

/-- Tri-state outcome of the date cutoff gate. -/
inductive GateOutcome where
  | keep : GateOutcome
  | stop : GateOutcome
  | unparseable (err : String) : GateOutcome
deriving DecidableEq

/-- The gate of main.rs lines 64–82 on a raw date string: parse with the two
patterns; on failure report `unparseable`; on success convert to midnight UTC
and `stop` exactly when strictly earlier than the cutoff. -/
def evaluateGate (cutoff : Int) (raw : String) : GateOutcome :=
  match parsedDate raw with
  | .error e => .unparseable e
  | .ok d => if dateToInstant d < cutoff then .stop else .keep

/-! ### Field extraction (main.rs lines 55–62 and 85–145) -/

/-- Does some text fragment of `d` contain `label` (the
`div.text().any(|t| t.contains(label))` filter of the source)? -/
def textsContain (label : String) (d : Element) : Bool :=
  d.texts.any (fun t => strContains t label)

/-- main.rs 55–62: first text fragment of the first
`div.col-sm-4.text-right h5.mrgn-tp-0.mrgn-bttm-sm` match, trimmed (twice,
as in the source). -/
def dateCheckOf (item : Element) : String :=
  strTrim (((((select date_check_sel item).head?).bind
    (fun d => d.texts.head?)).map strTrim).getD "")

/-- main.rs 85–90: first `p` of the first info block, `inner_html` trimmed. -/
def agreementOf (item : Element) : String :=
  ((((select info_sel item).head?.bind (fun d => (select p_sel d).head?)).map
    (fun p => strTrim p.innerHtml)).getD "")

/-- main.rs 91–97: first `p` of the first info block containing
"Agreement Number", `inner_html` trimmed. -/
def agreementNumberOf (item : Element) : String :=
  (((((select info_sel item).filter (textsContain "Agreement Number")).head?).bind
    (fun d => ((select p_sel d).head?).map (fun p => strTrim p.innerHtml))).getD "")

/-- main.rs 98–106: `inner_html` of the first `p` of the first generic block
containing "Description", label stripped, trimmed. -/
def descriptionOf (item : Element) : String :=
  strTrim (strReplace ((((select generic_sel item).filter
      (textsContain "Description")).head?.bind
      (fun d => ((select p_sel d).head?).map Element.innerHtml)).getD "")
    "Description" "")

/-- main.rs 107–115: text fragments of the first generic block containing
"Organization", joined with spaces, label stripped, trimmed. -/
def recipientOf (item : Element) : String :=
  strTrim (strReplace ((((select generic_sel item).filter
      (textsContain "Organization")).head?.map
      (fun d => joinSpace d.texts)).getD "")
    "Organization" "")

/-- main.rs 116–122: `inner_html` of the first `p` of the first name block,
trimmed. -/
def recipientPublicNameOf (item : Element) : String :=
  strTrim ((((select name_sel item).head?).bind
    (fun d => ((select p_sel d).head?).map Element.innerHtml)).getD "")

/-- main.rs 123–131: text fragments of the first info block containing
"Duration", joined with spaces, label stripped, trimmed. -/
def dateRangeOf (item : Element) : String :=
  strTrim (strReplace ((((select info_sel item).filter
      (textsContain "Duration")).head?.map
      (fun d => joinSpace d.texts)).getD "")
    "Duration" "")

/-- main.rs 132–136: `inner_html` of the first price match, trimmed. -/
def priceOf (item : Element) : String :=
  ((((select price_sel item).head?).map (fun h => strTrim h.innerHtml)).getD "")

/-- main.rs 137–145: text fragments of the first generic block containing
"Location", joined with spaces, label stripped, trimmed. -/
def locationOf (item : Element) : String :=
  strTrim (strReplace ((((select generic_sel item).filter
      (textsContain "Location")).head?.map
      (fun d => joinSpace d.texts)).getD "")
    "Location" "")

/-- The CSV data row written for a kept record (main.rs 160–170), in the
declared column order. -/
def rowOf (item : Element) : List String :=
  [agreementOf item, agreementNumberOf item, dateRangeOf item, dateCheckOf item,
   descriptionOf item, recipientOf item, recipientPublicNameOf item, priceOf item,
   locationOf item]

/-- The CSV header row (main.rs 14–24). -/
def headerRow : List String :=
  ["Agreement", "Agreement Number", "Date Agreement", "Date Agreed", "Description",
   "Recipient", "Recipient Public Name", "Price", "Location"]

/-! ### The crawl loop (main.rs 36–181) -/

/-- The `eprintln!` warning of main.rs line 71. -/
def warnMsg (raw err : String) : String :=
  "⚠️  Skipping record, could not parse date `" ++ raw ++ "`: " ++ err

/-- Result of processing the record nodes of one page: rows written, warnings
logged, and whether the `break 'pages` was taken. -/
structure PageOut where
  rows : List (List String)
  logs : List String
  stopped : Bool
deriving DecidableEq

/-- The per-item `for` loop of main.rs 51–171 on one page's record nodes:
skip-and-warn on a date parse failure, `break 'pages` when the parsed date is
strictly earlier than the cutoff, otherwise extract and write the row. -/
def processItems (cutoff : Int) : List Element → PageOut
  | [] => ⟨[], [], false⟩
  | item :: rest =>
    let date_check := dateCheckOf item
    match parsedDate date_check with
    | .error e =>
      let out := processItems cutoff rest
      ⟨out.rows, warnMsg date_check e :: out.logs, out.stopped⟩
    | .ok d =>
      if dateToInstant d < cutoff then ⟨[], [], true⟩
      else
        let out := processItems cutoff rest
        ⟨rowOf item :: out.rows, out.logs, out.stopped⟩

/-- Terminal state of a run: `halted` models reaching `wtr.flush()?; Ok(())`
after the loop exits (exit code 0), `fatal` models a transport error
propagated by `?` out of `main` (exit code 1); `fuelOut` is a run truncated
by fuel (the process is still crawling).  In every case the CSV file holds
the header plus the rows written so far. -/
inductive Outcome where
  | halted (rows : List (List String)) (logs : List String) : Outcome
  | fatal (err : String) (rows : List (List String)) (logs : List String) : Outcome
  | fuelOut (rows : List (List String)) (logs : List String) : Outcome
deriving DecidableEq

/-- Rows written so far (the CSV data rows). -/
def Outcome.rows : Outcome → List (List String)
  | .halted r _ => r
  | .fatal _ r _ => r
  | .fuelOut r _ => r

/-- Warnings logged so far. -/
def Outcome.logs : Outcome → List String
  | .halted _ l => l
  | .fatal _ _ l => l
  | .fuelOut _ l => l

/-- Process exit code: 0 after a normal halt, 1 on a propagated error,
none while still running. -/
def Outcome.exitCode : Outcome → Option Nat
  | .halted _ _ => some 0
  | .fatal _ _ _ => some 1
  | .fuelOut _ _ => none

/-- The `'pages` loop of main.rs 37–178: fetch page `page` (a transport
error propagates and is fatal), select its record nodes, process them;
stop on `break 'pages`, stop when the page had no record nodes, otherwise
advance to the next page.  `fuel` bounds the number of iterations modelled
(the source loop is unbounded). -/
def crawlLoop (cutoff : Int) (fetch : Nat → Except String Element) :
    Nat → Nat → List (List String) → List String → Outcome
  | 0, _, rows, logs => .fuelOut rows logs
  | fuel + 1, page, rows, logs =>
    match fetch page with
    | .error e => .fatal e rows logs
    | .ok doc =>
      let items := select item_sel doc
      let out := processItems cutoff items
      if out.stopped then .halted (rows ++ out.rows) (logs ++ out.logs)
      else if items.isEmpty then .halted (rows ++ out.rows) (logs ++ out.logs)
      else crawlLoop cutoff fetch fuel (page + 1) (rows ++ out.rows) (logs ++ out.logs)

/-- The whole run of `main`: compute the cutoff from `now`, start at page 1
with an empty sink. -/
def mainRun (now : Int) (fetch : Nat → Except String Element) (fuel : Nat) : Outcome :=
  crawlLoop (cutoffOf now) fetch fuel 1 [] []

/-- Contents of the CSV file: the header row, then the data rows. -/
def csvOf (o : Outcome) : List (List String) :=
  headerRow :: o.rows

/-! ### Spec-level views of the gate and the crawl -/

/-- Does the gate order a stop at this record node? -/
def isStopItem (cutoff : Int) (it : Element) : Bool :=
  match evaluateGate cutoff (dateCheckOf it) with
  | .stop => true
  | _ => false

/-- Does the gate keep this record node? -/
def isKeepItem (cutoff : Int) (it : Element) : Bool :=
  match evaluateGate cutoff (dateCheckOf it) with
  | .keep => true
  | _ => false

/-- Does neither pattern parse this record node's date? -/
def parseFails (it : Element) : Bool :=
  match parsedDate (dateCheckOf it) with
  | .error _ => true
  | .ok _ => false

/-- Spec-level view of one page: the record nodes actually kept, in document
order — the nodes strictly before the first stopping node whose gate outcome
is `keep`. -/
def keptItems (cutoff : Int) (items : List Element) : List Element :=
  (items.takeWhile (fun it => !isStopItem cutoff it)).filter (fun it => isKeepItem cutoff it)

/-- Does some record node of the page trigger the stop? -/
def pageStops (cutoff : Int) (items : List Element) : Bool :=
  items.any (fun it => isStopItem cutoff it)

/-- Spec-level view of the whole crawl: every kept record node in encounter
order, across pages starting at `page`, while fuel lasts. -/
def keptAcross (cutoff : Int) (fetch : Nat → Except String Element) : Nat → Nat → List Element
  | 0, _ => []
  | fuel + 1, page =>
    match fetch page with
    | .error _ => []
    | .ok doc =>
      let items := select item_sel doc
      if pageStops cutoff items then keptItems cutoff items
      else if items.isEmpty then keptItems cutoff items
      else keptItems cutoff items ++ keptAcross cutoff fetch fuel (page + 1)

/-! ### Helper lemmas -/

theorem charsLeading_refl_append (p r : List Char) : charsLeading p (p ++ r) = true := by
  induction p with
  | nil => rfl
  | cons c cs ih => simp [charsLeading, ih]

theorem charsContain_left (pat y : List Char) : charsContain (pat ++ y) pat = true := by
  cases pat with
  | nil =>
    cases y with
    | nil => rfl
    | cons c cs => simp [charsContain, charsLeading]
  | cons p ps => simp [charsContain, charsLeading, charsLeading_refl_append]

theorem charsContain_mid (x pat y : List Char) :
    charsContain (x ++ (pat ++ y)) pat = true := by
  induction x with
  | nil => simpa using charsContain_left pat y
  | cons c cs ih => simp [charsContain, ih]

theorem strData_append (a b : String) : (a ++ b).data = a.data ++ b.data := rfl

theorem strContains_mid (x pat y : String) : strContains (x ++ pat ++ y) pat = true := by
  have h := charsContain_mid x.data pat.data y.data
  simpa [strContains, strData_append, List.append_assoc] using h

theorem processItems_cons_err (cutoff : Int) (item : Element) (rest : List Element)
    (e : String) (hp : parsedDate (dateCheckOf item) = .error e) :
    processItems cutoff (item :: rest) =
      ⟨(processItems cutoff rest).rows,
       warnMsg (dateCheckOf item) e :: (processItems cutoff rest).logs,
       (processItems cutoff rest).stopped⟩ := by
  simp [processItems, hp]

theorem processItems_cons_stop (cutoff : Int) (item : Element) (rest : List Element)
    (d : Date) (hp : parsedDate (dateCheckOf item) = .ok d)
    (hlt : dateToInstant d < cutoff) :
    processItems cutoff (item :: rest) = ⟨[], [], true⟩ := by
  simp [processItems, hp, hlt]

theorem processItems_cons_keep (cutoff : Int) (item : Element) (rest : List Element)
    (d : Date) (hp : parsedDate (dateCheckOf item) = .ok d)
    (hlt : ¬ dateToInstant d < cutoff) :
    processItems cutoff (item :: rest) =
      ⟨rowOf item :: (processItems cutoff rest).rows,
       (processItems cutoff rest).logs, (processItems cutoff rest).stopped⟩ := by
  simp [processItems, hp, hlt]

theorem processItems_stop_append (cutoff : Int) (pre post : List Element) (bad : Element)
    (hpre : ∀ it ∈ pre, isStopItem cutoff it = false)
    (hbad : isStopItem cutoff bad = true) :
    processItems cutoff (pre ++ bad :: post) =
      ⟨(processItems cutoff pre).rows, (processItems cutoff pre).logs, true⟩ := by
  induction pre with
  | nil =>
    cases hstop : parsedDate (dateCheckOf bad) with
    | error e => exfalso; simp [isStopItem, evaluateGate, hstop] at hbad
    | ok d =>
      by_cases hlt : dateToInstant d < cutoff
      · simpa [processItems] using processItems_cons_stop cutoff bad post d hstop hlt
      · exfalso; simp [isStopItem, evaluateGate, hstop, hlt] at hbad
  | cons a pre ih =>
    have ha : isStopItem cutoff a = false := hpre a (by simp)
    have hpre' : ∀ it ∈ pre, isStopItem cutoff it = false :=
      fun it hit => hpre it (by simp [hit])
    cases hp : parsedDate (dateCheckOf a) with
    | error e =>
      rw [List.cons_append, processItems_cons_err cutoff a _ e hp,
        processItems_cons_err cutoff a pre e hp, ih hpre']
    | ok d =>
      by_cases hlt : dateToInstant d < cutoff
      · exfalso; simp [isStopItem, evaluateGate, hp, hlt] at ha
      · rw [List.cons_append, processItems_cons_keep cutoff a _ d hp hlt,
          processItems_cons_keep cutoff a pre d hp hlt, ih hpre']

theorem processItems_all_err (cutoff : Int) (items : List Element)
    (h : ∀ it ∈ items, parseFails it = true) :
    (processItems cutoff items).rows = [] ∧ (processItems cutoff items).stopped = false := by
  induction items with
  | nil => exact ⟨rfl, rfl⟩
  | cons a rest ih =>
    have ha := h a (by simp)
    have ih' := ih (fun it hit => h it (by simp [hit]))
    cases hp : parsedDate (dateCheckOf a) with
    | error e =>
      rw [processItems_cons_err cutoff a rest e hp]
      exact ⟨ih'.1, ih'.2⟩
    | ok d => exfalso; simp [parseFails, hp] at ha

theorem processItems_rows_eq (cutoff : Int) (items : List Element) :
    (processItems cutoff items).rows = (keptItems cutoff items).map rowOf := by
  induction items with
  | nil => rfl
  | cons a rest ih =>
    cases hp : parsedDate (dateCheckOf a) with
    | error e =>
      have hstop : isStopItem cutoff a = false := by simp [isStopItem, evaluateGate, hp]
      have hkeep : isKeepItem cutoff a = false := by simp [isKeepItem, evaluateGate, hp]
      rw [processItems_cons_err cutoff a rest e hp]
      simpa [keptItems, hstop, hkeep] using ih
    | ok d =>
      by_cases hlt : dateToInstant d < cutoff
      · have hstop : isStopItem cutoff a = true := by
          simp [isStopItem, evaluateGate, hp, hlt]
        rw [processItems_cons_stop cutoff a rest d hp hlt]
        simp [keptItems, hstop]
      · have hstop : isStopItem cutoff a = false := by
          simp [isStopItem, evaluateGate, hp, hlt]
        have hkeep : isKeepItem cutoff a = true := by
          simp [isKeepItem, evaluateGate, hp, hlt]
        rw [processItems_cons_keep cutoff a rest d hp hlt]
        simpa [keptItems, hstop, hkeep] using ih

theorem processItems_stopped_eq (cutoff : Int) (items : List Element) :
    (processItems cutoff items).stopped = pageStops cutoff items := by
  induction items with
  | nil => rfl
  | cons a rest ih =>
    cases hp : parsedDate (dateCheckOf a) with
    | error e =>
      have hstop : isStopItem cutoff a = false := by simp [isStopItem, evaluateGate, hp]
      rw [processItems_cons_err cutoff a rest e hp]
      simpa [pageStops, hstop] using ih
    | ok d =>
      by_cases hlt : dateToInstant d < cutoff
      · have hstop : isStopItem cutoff a = true := by
          simp [isStopItem, evaluateGate, hp, hlt]
        rw [processItems_cons_stop cutoff a rest d hp hlt]
        simp [pageStops, hstop]
      · have hstop : isStopItem cutoff a = false := by
          simp [isStopItem, evaluateGate, hp, hlt]
        rw [processItems_cons_keep cutoff a rest d hp hlt]
        simpa [pageStops, hstop] using ih

theorem crawlLoop_rows (cutoff : Int) (fetch : Nat → Except String Element) :
    ∀ (fuel page : Nat) (rows : List (List String)) (logs : List String),
      (crawlLoop cutoff fetch fuel page rows logs).rows =
        rows ++ (keptAcross cutoff fetch fuel page).map rowOf := by
  intro fuel
  induction fuel with
  | zero => intro page rows logs; simp [crawlLoop, keptAcross, Outcome.rows]
  | succ fuel ih =>
    intro page rows logs
    cases hf : fetch page with
    | error e => simp [crawlLoop, keptAcross, hf, Outcome.rows]
    | ok doc =>
      have hrows := processItems_rows_eq cutoff (select item_sel doc)
      have hstopeq := processItems_stopped_eq cutoff (select item_sel doc)
      by_cases hstop : pageStops cutoff (select item_sel doc) = true
      · simp [crawlLoop, keptAcross, hf, hstopeq, hstop, Outcome.rows, hrows]
      · by_cases hemp : (select item_sel doc).isEmpty = true
        · simp [crawlLoop, keptAcross, hf, hstopeq, hstop, hemp, Outcome.rows, hrows]
        · simp [crawlLoop, keptAcross, hf, hstopeq, hstop, hemp, ih, hrows]

/-! ### Definitions following the spec's words for claim C5 -/

/-- The uniform procedure claim C5 describes for all four labeled free-text
fields: scan the generic blocks for one whose text contains the label,
concatenate that block's full text, strip the label, trim; empty string when
no block matches. -/
def specLabeledField (label : String) (item : Element) : String :=
  match (select generic_sel item).filter (textsContain label) with
  | [] => ""
  | d :: _ => strTrim (strReplace (joinSpace d.texts) label "")

/-- Amended procedure for the description field: the source takes the first
paragraph's inner markup of the first matching generic block — not the
block's concatenated text — then strips the label and trims. -/
def specDescriptionField (item : Element) : String :=
  match (select generic_sel item).filter (textsContain "Description") with
  | [] => ""
  | d :: _ =>
    strTrim (strReplace ((((select p_sel d).head?).map Element.innerHtml).getD "")
      "Description" "")

/-- Amended procedure for the date_range field: the scan is over info blocks
(`div.col-sm-12.mrgn-tp-0`), not over all generic blocks (`div.col-sm-12`). -/
def specInfoLabeledField (label : String) (item : Element) : String :=
  match (select info_sel item).filter (textsContain label) with
  | [] => ""
  | d :: _ => strTrim (strReplace (joinSpace d.texts) label "")

/-! ### Concrete data for witnesses and the counterexample -/

/-- A record node whose displayed date is 1969-12-31 (one day before the Unix
epoch). -/
def wStopItem : Element :=
  ⟨"div", ["row", "mrgn-bttm-xl", "mrgn-lft-md"],
    .elemCons "div" ["col-sm-4", "text-right"]
      (.elemCons "h5" ["mrgn-tp-0", "mrgn-bttm-sm"] (.textCons "Dec 31, 1969" .nil) .nil)
      .nil⟩

/-- A record node whose displayed date is 1970-01-01 (the Unix epoch). -/
def wKeepItem : Element :=
  ⟨"div", ["row", "mrgn-bttm-xl", "mrgn-lft-md"],
    .elemCons "div" ["col-sm-4", "text-right"]
      (.elemCons "h5" ["mrgn-tp-0", "mrgn-bttm-sm"] (.textCons "Jan 1, 1970" .nil) .nil)
      .nil⟩

/-- A record node after the stopping node, even older (1960). -/
def wPostItem : Element :=
  ⟨"div", ["row", "mrgn-bttm-xl", "mrgn-lft-md"],
    .elemCons "div" ["col-sm-4", "text-right"]
      (.elemCons "h5" ["mrgn-tp-0", "mrgn-bttm-sm"] (.textCons "Jan 1, 1960" .nil) .nil)
      .nil⟩

/-- A record node whose displayed date is the unparseable string "N/A". -/
def wNaItem : Element :=
  ⟨"div", ["row", "mrgn-bttm-xl", "mrgn-lft-md"],
    .elemCons "div" ["col-sm-4", "text-right"]
      (.elemCons "h5" ["mrgn-tp-0", "mrgn-bttm-sm"] (.textCons "N/A" .nil) .nil)
      .nil⟩

/-- A record node whose displayed date is 2024-01-05. -/
def wC2Item : Element :=
  ⟨"div", ["row", "mrgn-bttm-xl", "mrgn-lft-md"],
    .elemCons "div" ["col-sm-4", "text-right"]
      (.elemCons "h5" ["mrgn-tp-0", "mrgn-bttm-sm"] (.textCons "Jan 5, 2024" .nil) .nil)
      .nil⟩

/-- A record node with no sub-structure at all. -/
def wBareItem : Element :=
  ⟨"div", ["row", "mrgn-bttm-xl", "mrgn-lft-md"], .nil⟩

/-- A page document holding a kept record, then a stopping record, then a
further (older) record. -/
def wDoc1 : Element :=
  ⟨"html", [], consEl wKeepItem (consEl wStopItem (consEl wPostItem .nil))⟩

/-- A fetcher returning `wDoc1` for every page. -/
def wFetch1 : Nat → Except String Element :=
  fun _ => .ok wDoc1

/-- A page document with zero record nodes. -/
def wEmptyDoc : Element :=
  ⟨"html", [], .nil⟩

/-- A fetcher returning the empty page for every page. -/
def wFetchEmpty : Nat → Except String Element :=
  fun _ => .ok wEmptyDoc

/-- A fetcher failing with a transport error on every page. -/
def wFetchErr : Nat → Except String Element :=
  fun _ => .error "connection refused"

/-- A page document holding a single record node with an unparseable date. -/
def wDocNA : Element :=
  ⟨"html", [], consEl wNaItem .nil⟩

/-- A fetcher returning the unparseable-date page for every page. -/
def wFetchNA : Nat → Except String Element :=
  fun _ => .ok wDocNA

/-- A record node on which claim C5's uniform procedure disagrees with the
source: its description block holds two paragraphs (the source takes only
the first paragraph's markup), and its duration text sits in a generic block
that is not an info block (the source looks only at info blocks). -/
def cexItem : Element :=
  ⟨"div", ["row", "mrgn-bttm-xl", "mrgn-lft-md"],
    .elemCons "div" ["col-sm-12"]
      (.textCons "Description "
        (.elemCons "p" [] (.textCons "foo" .nil)
          (.elemCons "p" [] (.textCons "bar" .nil) .nil)))
      (.elemCons "div" ["col-sm-12"] (.textCons "Duration Jan 2020 to Dec 2020" .nil) .nil)⟩

/-! ### The claims -/

/-- Claim C1: when the crawl meets the first record node whose parsed date is
strictly earlier than the cutoff instant, the run halts immediately: the rows
and warnings produced are exactly those of the nodes before that node on its
page — nothing from the remaining nodes of the page — and, since `fetch` is
unconstrained at every page other than the current one and the remaining fuel
is arbitrary, no later page is fetched and nothing from any later page is
extracted or emitted. -/
theorem claim_C1 (cutoff : Int) (fetch : Nat → Except String Element)
    (fuel page : Nat) (rows : List (List String)) (logs : List String)
    (doc : Element) (pre post : List Element) (bad : Element)
    (hf : fetch page = .ok doc)
    (hitems : select item_sel doc = pre ++ bad :: post)
    (hpre : ∀ it ∈ pre, isStopItem cutoff it = false)
    (hbad : isStopItem cutoff bad = true) :
    crawlLoop cutoff fetch (fuel + 1) page rows logs =
      .halted (rows ++ (processItems cutoff pre).rows)
        (logs ++ (processItems cutoff pre).logs) := by
  have hp := processItems_stop_append cutoff pre post bad hpre hbad
  simp [crawlLoop, hf, hitems, hp]

/-- Witness for C1: on a concrete listing whose page holds a kept record
(epoch day), then a record one day older than the epoch cutoff, then a 1960
record, the crawl halts with exactly the first record's row. -/
theorem claim_C1_witness :
    crawlLoop 0 wFetch1 (5 + 1) 1 [] [] =
      .halted ([] ++ (processItems 0 [wKeepItem]).rows)
        ([] ++ (processItems 0 [wKeepItem]).logs) :=
  claim_C1 0 wFetch1 5 1 [] [] wDoc1 [wKeepItem] [wPostItem] wStopItem rfl rfl
    (by decide) (by decide)

/-- Claim C2: a record whose parsed date, converted to the start of that day
in UTC, equals the cutoff instant exactly is kept: the gate yields `keep` and
the record's row is extracted and emitted before processing continues. -/
theorem claim_C2 (cutoff : Int) (item : Element) (rest : List Element) (d : Date)
    (hp : parsedDate (dateCheckOf item) = .ok d)
    (he : dateToInstant d = cutoff) :
    evaluateGate cutoff (dateCheckOf item) = .keep ∧
    (processItems cutoff (item :: rest)).rows =
      rowOf item :: (processItems cutoff rest).rows := by
  have hlt : ¬ dateToInstant d < cutoff := by rw [he]; exact lt_irrefl cutoff
  constructor
  · simp [evaluateGate, hp, hlt]
  · rw [processItems_cons_keep cutoff item rest d hp hlt]

/-- Witness for C2: a record dated 2024-01-05 with the cutoff set to exactly
midnight UTC of 2024-01-05 is kept and emitted. -/
theorem claim_C2_witness :
    evaluateGate (dateToInstant ⟨2024, 1, 5⟩) (dateCheckOf wC2Item) = .keep ∧
    (processItems (dateToInstant ⟨2024, 1, 5⟩) [wC2Item]).rows =
      rowOf wC2Item :: (processItems (dateToInstant ⟨2024, 1, 5⟩) []).rows :=
  claim_C2 (dateToInstant ⟨2024, 1, 5⟩) wC2Item [] ⟨2024, 1, 5⟩ rfl rfl

/-- Claim C3: the gate attempts exactly two parse patterns in order —
`"%b %e, %Y"` then `"%b %d, %Y"` — the first successful parse wins, and the
gate's outcome is `unparseable` precisely when both attempts fail. -/
theorem claim_C3 (cutoff : Int) (raw : String) :
    (∀ d, parse_be raw = .ok d → parsedDate raw = .ok d) ∧
    (∀ e d, parse_be raw = .error e → parse_bd raw = .ok d → parsedDate raw = .ok d) ∧
    ((∃ e, evaluateGate cutoff raw = .unparseable e) ↔
      ((∃ e, parse_be raw = .error e) ∧ (∃ e, parse_bd raw = .error e))) := by
  refine ⟨?_, ?_, ?_⟩
  · intro d h; simp [parsedDate, h]
  · intro e d h1 h2; simp [parsedDate, h1, h2]
  · cases h : parseMDY raw with
    | error e =>
      constructor
      · intro _; exact ⟨⟨e, h⟩, ⟨e, h⟩⟩
      · intro _
        refine ⟨e, ?_⟩
        simp [evaluateGate, parsedDate, parse_be, parse_bd, h]
    | ok d =>
      constructor
      · rintro ⟨e, he⟩
        exfalso
        simp only [evaluateGate, parsedDate, parse_be, parse_bd, h] at he
        split at he <;> simp_all
      · rintro ⟨⟨e1, he1⟩, _⟩
        rw [parse_be, h] at he1
        exact absurd he1 (by simp)

/-- Witness for C3: the first pattern parses "Jan 5, 2024", so the chained
parse returns that date. -/
theorem claim_C3_witness : parsedDate "Jan 5, 2024" = .ok ⟨2024, 1, 5⟩ :=
  (claim_C3 0 "Jan 5, 2024").1 ⟨2024, 1, 5⟩ rfl

/-- Claim C4: a record whose raw date string fails both parse patterns is
skipped — no row is appended for it — a warning containing both the raw text
and the parse-error detail is logged, and processing continues with the next
record node of the same page. -/
theorem claim_C4 (cutoff : Int) (item : Element) (rest : List Element) (e : String)
    (hp : parsedDate (dateCheckOf item) = .error e) :
    processItems cutoff (item :: rest) =
      ⟨(processItems cutoff rest).rows,
       warnMsg (dateCheckOf item) e :: (processItems cutoff rest).logs,
       (processItems cutoff rest).stopped⟩ ∧
    strContains (warnMsg (dateCheckOf item) e) (dateCheckOf item) = true ∧
    strContains (warnMsg (dateCheckOf item) e) e = true := by
  refine ⟨processItems_cons_err cutoff item rest e hp, ?_, ?_⟩
  · have h := strContains_mid "⚠️  Skipping record, could not parse date `"
      (dateCheckOf item) ("`: " ++ e)
    simpa [warnMsg, String.append_assoc] using h
  · have h := strContains_mid
      ("⚠️  Skipping record, could not parse date `" ++ dateCheckOf item ++ "`: ") e ""
    simpa [warnMsg, String.append_assoc] using h

/-- Witness for C4: the record dated "N/A" is skipped with a warning holding
"N/A" and the parse-error text, and processing continues. -/
theorem claim_C4_witness :
    processItems 0 [wNaItem] =
      ⟨(processItems 0 ([] : List Element)).rows,
       warnMsg (dateCheckOf wNaItem) "input contains invalid characters" ::
         (processItems 0 ([] : List Element)).logs,
       (processItems 0 ([] : List Element)).stopped⟩ ∧
    strContains (warnMsg (dateCheckOf wNaItem) "input contains invalid characters")
      (dateCheckOf wNaItem) = true ∧
    strContains (warnMsg (dateCheckOf wNaItem) "input contains invalid characters")
      "input contains invalid characters" = true :=
  claim_C4 0 wNaItem [] "input contains invalid characters" rfl

/-- Counterexample to claim C5 as stated: on `cexItem` the uniform
generic-block/full-text procedure disagrees with the extractor — the source
yields description "foo" (first paragraph only) where the claimed procedure
yields "foo bar", and yields date_range "" (info blocks only) where the
claimed procedure yields "Jan 2020 to Dec 2020". -/
theorem claim_C5_cex :
    ¬ (descriptionOf cexItem = specLabeledField "Description" cexItem ∧
       recipientOf cexItem = specLabeledField "Organization" cexItem ∧
       dateRangeOf cexItem = specLabeledField "Duration" cexItem ∧
       locationOf cexItem = specLabeledField "Location" cexItem) := by
  decide

/-- Claim C5 (amended): recipient and location follow the claimed procedure —
scan the generic blocks for one whose text contains the label, join the
block's text, strip the label, trim, empty when none matches; description
instead takes the first paragraph's inner markup of the first matching
generic block; and date_range scans info blocks rather than all generic
blocks. -/
theorem claim_C5_amended (item : Element) :
    descriptionOf item = specDescriptionField item ∧
    recipientOf item = specLabeledField "Organization" item ∧
    dateRangeOf item = specInfoLabeledField "Duration" item ∧
    locationOf item = specLabeledField "Location" item := by
  refine ⟨?_, ?_, ?_, ?_⟩
  · cases h : (select generic_sel item).filter (textsContain "Description") with
    | nil => simp [descriptionOf, specDescriptionField, h]; rfl
    | cons d tl => simp [descriptionOf, specDescriptionField, h]
  · cases h : (select generic_sel item).filter (textsContain "Organization") with
    | nil => simp [recipientOf, specLabeledField, h]; rfl
    | cons d tl => simp [recipientOf, specLabeledField, h]
  · cases h : (select info_sel item).filter (textsContain "Duration") with
    | nil => simp [dateRangeOf, specInfoLabeledField, h]; rfl
    | cons d tl => simp [dateRangeOf, specInfoLabeledField, h]
  · cases h : (select generic_sel item).filter (textsContain "Location") with
    | nil => simp [locationOf, specLabeledField, h]; rfl
    | cons d tl => simp [locationOf, specLabeledField, h]

/-- Claim C6: on every run — `fetch`, `now` and fuel arbitrary, transport
failures and truncated runs included — the CSV output is the nine-name
header row exactly once, first, followed by exactly one row per kept record
in encounter order, and every data row has the nine fields in the declared
column order (the order fixed by `rowOf`). -/
theorem claim_C6 (now : Int) (fetch : Nat → Except String Element) (fuel : Nat) :
    csvOf (mainRun now fetch fuel) =
      headerRow :: (keptAcross (cutoffOf now) fetch fuel 1).map rowOf ∧
    ((keptAcross (cutoffOf now) fetch fuel 1).map rowOf).all
      (fun r => r.length == 9) = true := by
  constructor
  · unfold csvOf mainRun
    rw [crawlLoop_rows]
    simp
  · rw [List.all_eq_true]
    intro r hr
    obtain ⟨it, _, rfl⟩ := List.mem_map.mp hr
    rfl

/-- Claim C7: field extraction is total — `rowOf` is a Lean function, defined
on every record node — and each of the nine fields degrades to the empty
string when its selector chain or label match finds no structure; in
particular a node with no "Organization"-labeled generic block yields an
empty recipient. -/
theorem claim_C7 (item : Element) :
    ((select info_sel item).head?.bind (fun d => (select p_sel d).head?) = none →
      agreementOf item = "") ∧
    (((select info_sel item).filter (textsContain "Agreement Number")).head? = none →
      agreementNumberOf item = "") ∧
    (((select generic_sel item).filter (textsContain "Description")).head? = none →
      descriptionOf item = "") ∧
    (((select generic_sel item).filter (textsContain "Organization")).head? = none →
      recipientOf item = "") ∧
    ((select name_sel item).head? = none → recipientPublicNameOf item = "") ∧
    (((select info_sel item).filter (textsContain "Duration")).head? = none →
      dateRangeOf item = "") ∧
    ((select price_sel item).head? = none → priceOf item = "") ∧
    (((select generic_sel item).filter (textsContain "Location")).head? = none →
      locationOf item = "") ∧
    ((select date_check_sel item).head? = none → dateCheckOf item = "") := by
  refine ⟨?_, ?_, ?_, ?_, ?_, ?_, ?_, ?_, ?_⟩
  · intro h; simp [agreementOf, h]
  · intro h; simp [agreementNumberOf, h]
  · intro h; simp [descriptionOf, h]; rfl
  · intro h; simp [recipientOf, h]; rfl
  · intro h; simp [recipientPublicNameOf, h]; rfl
  · intro h; simp [dateRangeOf, h]; rfl
  · intro h; simp [priceOf, h]
  · intro h; simp [locationOf, h]; rfl
  · intro h; simp [dateCheckOf, h]; rfl

/-- Witness for C7: on a record node with no sub-structure at all, every one
of the nine fields extracts to the empty string, with no failure. -/
theorem claim_C7_witness :
    agreementOf wBareItem = "" ∧ agreementNumberOf wBareItem = "" ∧
    descriptionOf wBareItem = "" ∧ recipientOf wBareItem = "" ∧
    recipientPublicNameOf wBareItem = "" ∧ dateRangeOf wBareItem = "" ∧
    priceOf wBareItem = "" ∧ locationOf wBareItem = "" ∧ dateCheckOf wBareItem = "" :=
  ⟨(claim_C7 wBareItem).1 rfl, (claim_C7 wBareItem).2.1 rfl,
   (claim_C7 wBareItem).2.2.1 rfl, (claim_C7 wBareItem).2.2.2.1 rfl,
   (claim_C7 wBareItem).2.2.2.2.1 rfl, (claim_C7 wBareItem).2.2.2.2.2.1 rfl,
   (claim_C7 wBareItem).2.2.2.2.2.2.1 rfl, (claim_C7 wBareItem).2.2.2.2.2.2.2.1 rfl,
   (claim_C7 wBareItem).2.2.2.2.2.2.2.2 rfl⟩

/-- Claim C8: a fetched page with zero record nodes halts the crawl at that
page — `fetch` is unconstrained at every other page and the remaining fuel is
arbitrary, so no further page is fetched — the run ends in the normal-exit
path (sink flushed and closed, the sink holding exactly the rows written so
far) and the process exit code is zero. -/
theorem claim_C8 (cutoff : Int) (fetch : Nat → Except String Element)
    (fuel page : Nat) (rows : List (List String)) (logs : List String) (doc : Element)
    (hf : fetch page = .ok doc)
    (hempty : select item_sel doc = []) :
    crawlLoop cutoff fetch (fuel + 1) page rows logs = .halted rows logs ∧
    (crawlLoop cutoff fetch (fuel + 1) page rows logs).exitCode = some 0 := by
  have h : crawlLoop cutoff fetch (fuel + 1) page rows logs = .halted rows logs := by
    simp [crawlLoop, hf, hempty, processItems]
  exact ⟨h, by rw [h]; rfl⟩

/-- Witness for C8: a run that reaches an empty page (here at page 7) halts
there with no new rows and exit code zero. -/
theorem claim_C8_witness :
    crawlLoop 0 wFetchEmpty (3 + 1) 7 [] [] = .halted [] [] ∧
    (crawlLoop 0 wFetchEmpty (3 + 1) 7 [] []).exitCode = some 0 :=
  claim_C8 0 wFetchEmpty 3 7 [] [] wEmptyDoc rfl rfl

/-- Claim C9: a transport error on a page fetch aborts the run immediately:
the result is `fatal` with that error and the rows written so far — the
equation holds for every remaining-fuel value, including none, so a single
fetch attempt settles the run (no retry), and no record from that page or
any later page is emitted — and the process exit code is 1, non-zero. -/
theorem claim_C9 (cutoff : Int) (fetch : Nat → Except String Element)
    (fuel page : Nat) (rows : List (List String)) (logs : List String) (e : String)
    (hf : fetch page = .error e) :
    crawlLoop cutoff fetch (fuel + 1) page rows logs = .fatal e rows logs ∧
    (crawlLoop cutoff fetch (fuel + 1) page rows logs).exitCode = some 1 ∧
    (1 : Nat) ≠ 0 := by
  have h : crawlLoop cutoff fetch (fuel + 1) page rows logs = .fatal e rows logs := by
    simp [crawlLoop, hf]
  exact ⟨h, by rw [h]; rfl, by decide⟩

/-- Witness for C9: a fetch failing with "connection refused" ends the run at
once as `fatal` with exit code 1. -/
theorem claim_C9_witness :
    crawlLoop 0 wFetchErr (2 + 1) 4 [] [] = .fatal "connection refused" [] [] ∧
    (crawlLoop 0 wFetchErr (2 + 1) 4 [] []).exitCode = some 1 ∧
    (1 : Nat) ≠ 0 :=
  claim_C9 0 wFetchErr 2 4 [] [] "connection refused" rfl

/-- Claim C10: a page holding at least one record node, all of whose dates
fail to parse, emits no row from that page yet does not halt the crawl: the
run continues exactly as a fetch of the next page (with only the warnings
appended to the log) — end-of-listing termination depends on the presence of
record nodes, not on whether any record was emitted. -/
theorem claim_C10 (cutoff : Int) (fetch : Nat → Except String Element)
    (fuel page : Nat) (rows : List (List String)) (logs : List String) (doc : Element)
    (hf : fetch page = .ok doc)
    (hne : select item_sel doc ≠ [])
    (herr : ∀ it ∈ select item_sel doc, parseFails it = true) :
    (processItems cutoff (select item_sel doc)).rows = [] ∧
    crawlLoop cutoff fetch (fuel + 1) page rows logs =
      crawlLoop cutoff fetch fuel (page + 1) rows
        (logs ++ (processItems cutoff (select item_sel doc)).logs) := by
  obtain ⟨hrows, hstop⟩ := processItems_all_err cutoff (select item_sel doc) herr
  refine ⟨hrows, ?_⟩
  obtain ⟨a, as, hcons⟩ := List.exists_cons_of_ne_nil hne
  rw [hcons] at hrows hstop
  simp [crawlLoop, hf, hcons, hstop, hrows]

/-- Witness for C10: a page holding one record dated "N/A" emits nothing but
the crawl advances to page 2. -/
theorem claim_C10_witness :
    (processItems 0 (select item_sel wDocNA)).rows = [] ∧
    crawlLoop 0 wFetchNA (1 + 1) 1 [] [] =
      crawlLoop 0 wFetchNA 1 (1 + 1) []
        ([] ++ (processItems 0 (select item_sel wDocNA)).logs) :=
  claim_C10 0 wFetchNA 1 1 [] [] wDocNA rfl (by decide) (by decide)

end Etl
